import Mathlib

/-!
# Verification of the inferno-bell timed playback scheduler

Shallow embedding of the repository's playback core:

* `MidiPlayer` (src/unnamed/part_000): `stopPlayback`, `playSequence`, the
  per-event `setTimeout` callbacks and the 500 ms completion-grace timeout,
  modelled as an explicit state (`MState`) plus an armed-timer list and a
  deterministic single-threaded event loop (`flush`) that always fires the
  earliest-deadline pending timer (ties broken by arming order, as in a JS
  event loop).
* The `App.js` / `BellsContainer` wiring (`handleBellPlay` stores the note
  with `setActiveNote`; a `useEffect` keyed on `activeNote` calls
  `handleBellClick`), modelled by `appTriggers`: a React state update with an
  identical value bails out, so the effect re-runs only when the note changes.
* `BellsContainer.handleBellClick` (src/src/components/Bell.js): audio restart
  for known notes, the per-note `isPlaying` visual flag and its unconditional
  200 ms clear timeout, modelled by `BellsState` / `handleBellClick` /
  `fireClears`.

JavaScript number semantics for the progress computation
`Math.min((elapsed / totalDuration) * 100, 100)` are embedded by `JsNum`
(rationals extended with NaN and the infinities): division by zero yields
NaN or an infinity exactly as in IEEE/JS, and `Math.min` propagates NaN.
-/

/-- A `{note, time}` element of the sequence delivered by the upload gateway;
`time` is milliseconds since sequence start. -/
structure NoteEvent where
  note : String
  time : Nat
deriving DecidableEq

/-- JS numbers as far as the progress computation needs them: NaN, the two
infinities, and finite values (modelled as rationals, since only +, -, /, *
and min occur). -/
inductive JsNum where
  | nan : JsNum
  | posInf : JsNum
  | negInf : JsNum
  | num : ℚ → JsNum
deriving DecidableEq

/-- JS division of two finite numbers: `0/0 = NaN`, `x/0 = ±Infinity` for
`x ≠ 0`, ordinary division otherwise. -/
def jsDiv (a b : ℚ) : JsNum :=
  if b = 0 then
    if a = 0 then JsNum.nan else if 0 < a then JsNum.posInf else JsNum.negInf
  else JsNum.num (a / b)

/-- JS multiplication by the positive constant 100 (`NaN*100 = NaN`,
`±Infinity*100 = ±Infinity`). -/
def jsMul100 : JsNum → JsNum
  | JsNum.nan => JsNum.nan
  | JsNum.posInf => JsNum.posInf
  | JsNum.negInf => JsNum.negInf
  | JsNum.num q => JsNum.num (q * 100)

/-- `Math.min(x, 100)`: NaN if `x` is NaN, otherwise the smaller value. -/
def jsMin100 : JsNum → JsNum
  | JsNum.nan => JsNum.nan
  | JsNum.posInf => JsNum.num 100
  | JsNum.negInf => JsNum.negInf
  | JsNum.num q => JsNum.num (min q 100)

/-- `Math.min((elapsed / totalDuration) * 100, 100)` from the timer callback
in `playSequence`. -/
def computeProgress (elapsed totalDuration : ℚ) : JsNum :=
  jsMin100 (jsMul100 (jsDiv elapsed totalDuration))

/-- What a pending timeout does when it fires: a per-event callback (closing
over the note, the session's `startTime` and `totalDuration`, and whether its
index is the last), or the 500 ms completion-grace callback
(`setTimeout(stopPlayback, 500)`). -/
inductive TAction where
  | fireEvent : String → Nat → Nat → Bool → TAction
  | grace : TAction
deriving DecidableEq

/-- An armed `setTimeout`: its handle (`id`), absolute wall-clock deadline
(`fireAt`, in ms) and callback. -/
structure ArmedTimer where
  id : Nat
  fireAt : Nat
  act : TAction
deriving DecidableEq

/-- The MidiPlayer component state: wall clock, the `isPlaying` and
`progress` React state, `playerRef.current` (the tracked timeout handles, or
`null`), the collection of armed-but-unfired timeouts, and a fresh-handle
counter. -/
structure MState where
  now : Nat
  isPlaying : Bool
  progress : JsNum
  playerRef : Option (List Nat)
  timers : List ArmedTimer
  nextId : Nat
deriving DecidableEq

/-- The component's initial state. -/
def initState : MState :=
  { now := 0, isPlaying := false, progress := JsNum.num 0,
    playerRef := none, timers := [], nextId := 0 }

/-- The `playerRef.current.forEach(timeout => clearTimeout(timeout))` part of
`stopPlayback`: the timeouts whose handles are tracked in the ref are
cancelled, every other pending timeout survives. -/
def stopTimers (ref : Option (List Nat)) (ts : List ArmedTimer) :
    List ArmedTimer :=
  match ref with
  | some ids => ts.filter (fun t => decide (t.id ∉ ids))
  | none => ts

/-- `stopPlayback`: clears every timeout whose handle is tracked in
`playerRef.current`, nulls the ref, and resets `isPlaying`/`progress`.
Untracked pending timeouts are untouched. -/
def stopPlayback (s : MState) : MState :=
  { s with timers := stopTimers s.playerRef s.timers, playerRef := none,
           isPlaying := false, progress := JsNum.num 0 }

/-- The `sequence.forEach((event, index) => { setTimeout(..., event.time) })`
loop: arms one timeout per event (deadline `startTime + event.time`, handles
allocated in arming order), marking the last index. Returns the armed timers,
the handle list pushed into `playerRef.current`, and the next fresh handle. -/
def armTimers (startTime td : Nat) :
    List NoteEvent → Nat → List ArmedTimer × List Nat × Nat
  | [], nid => ([], [], nid)
  | [e], nid =>
      ([⟨nid, startTime + e.time, TAction.fireEvent e.note startTime td true⟩],
       [nid], nid + 1)
  | e :: e2 :: rest, nid =>
      let r := armTimers startTime td (e2 :: rest) (nid + 1)
      (⟨nid, startTime + e.time, TAction.fireEvent e.note startTime td false⟩ :: r.1,
       nid :: r.2.1, r.2.2)

/-- `playSequence`: no-op on a null or empty sequence; otherwise stops any
prior session, records the start time, computes
`totalDuration = sequence[sequence.length - 1].time`, and arms one tracked
timeout per event. -/
def playSequence (oseq : Option (List NoteEvent)) (s : MState) : MState :=
  match oseq with
  | none => s
  | some [] => s
  | some (e :: rest) =>
      let s1 := stopPlayback s
      let startTime := s1.now
      let td := (rest.getLastD e).time
      let r := armTimers startTime td (e :: rest) s1.nextId
      { s1 with isPlaying := true, playerRef := some r.2.1,
                timers := s1.timers ++ r.1, nextId := r.2.2 }

/-- Run a fired timeout's callback. A per-event callback calls
`onBellPlay(event.note)` (the returned output list), recomputes `progress`
from the wall clock, and — when its index is the last — arms the 500 ms
grace timeout, whose handle is *not* pushed into `playerRef.current`.
The grace callback is `stopPlayback`. -/
def runAction (a : TAction) (s : MState) : MState × List String :=
  match a with
  | TAction.fireEvent note startTime td isLast =>
      let elapsed : ℚ := ((s.now - startTime : Nat) : ℚ)
      let s1 := { s with progress := computeProgress elapsed (td : ℚ) }
      let s2 :=
        if isLast then
          { s1 with
              timers := s1.timers ++ [⟨s1.nextId, s1.now + 500, TAction.grace⟩],
              nextId := s1.nextId + 1 }
        else s1
      (s2, [note])
  | TAction.grace => (stopPlayback s, [])

/-- Event-loop ordering: `a` fires before `b` when its deadline is earlier,
or at an equal deadline when it was armed first (smaller handle). -/
def timerLe (a b : ArmedTimer) : Bool :=
  decide (a.fireAt < b.fireAt ∨ (a.fireAt = b.fireAt ∧ a.id ≤ b.id))

/-- The pending timeout the event loop fires next, if any. -/
def minTimer : List ArmedTimer → Option ArmedTimer
  | [] => none
  | t :: ts =>
      match minTimer ts with
      | none => some t
      | some u => if timerLe t u then some t else some u

/-- Fire the next pending timeout provided its deadline is at most `bound`:
advance the clock to the deadline, retire the timeout, run its callback. -/
def fireNextDue (bound : Nat) (s : MState) : Option (MState × List String) :=
  match minTimer s.timers with
  | none => none
  | some t =>
      if t.fireAt ≤ bound then
        let s1 := { s with now := max s.now t.fireAt,
                           timers := s.timers.filter (fun u => decide (u.id ≠ t.id)) }
        some (runAction t.act s1)
      else none

/-- Fire every pending timeout with deadline at most `bound`, in event-loop
order, collecting the `onBellPlay` calls. `fuel` bounds the number of
firings. -/
def flush (fuel bound : Nat) (s : MState) : MState × List String :=
  match fuel with
  | 0 => (s, [])
  | Nat.succ f =>
      match fireNextDue bound s with
      | none => (s, [])
      | some (s1, out) =>
          let r := flush f bound s1
          (r.1, out ++ r.2)

/-- The user-visible operations on the player: pressing Play with the current
sequence, pressing Stop, and unmounting the component (whose `useEffect`
cleanup calls `stopPlayback`). -/
inductive UserAct where
  | play : Option (List NoteEvent) → UserAct
  | stop : UserAct
  | unmount : UserAct

/-- A user action performed at an absolute wall-clock time. -/
structure SCmd where
  t : Nat
  act : UserAct

/-- Dispatch of a user action on the component state. -/
def applyAct : UserAct → MState → MState
  | UserAct.play oseq, s => playSequence oseq s
  | UserAct.stop, s => stopPlayback s
  | UserAct.unmount, s => stopPlayback s

/-- Run one timed user action: first fire every timeout due before its time
(single-threaded event loop), then perform the action at that time. -/
def runSCmd (fuel : Nat) (c : SCmd) (s : MState) : MState × List String :=
  let r := flush fuel c.t s
  (applyAct c.act { r.1 with now := max r.1.now c.t }, r.2)

/-- Run a time-ordered script of user actions. -/
def runScript (fuel : Nat) : List SCmd → MState → MState × List String
  | [], s => (s, [])
  | c :: cs, s =>
      let r := runSCmd fuel c s
      let r2 := runScript fuel cs r.1
      (r2.1, r.2 ++ r2.2)

/-- Run a script, then let the clock run to `horizon`, firing everything due. -/
def runFull (fuel horizon : Nat) (cs : List SCmd) (s : MState) :
    MState × List String :=
  let r := runScript fuel cs s
  let r2 := flush fuel horizon r.1
  (r2.1, r.2 ++ r2.2)

/-- The `App.js` / `BellsContainer` wiring between the scheduler and the
note trigger: `handleBellPlay(note)` does `setActiveNote(note)`, and a
`useEffect` keyed on `activeNote` runs `handleBellClick(activeNote)` when (and
only when) the stored value changes — a React state update with an identical
value bails out, firing no effect. Given the previous `activeNote` and the
list of `onBellPlay` calls, returns the list of `handleBellClick` calls. -/
def appTriggers : Option String → List String → List String
  | _, [] => []
  | cur, n :: ns =>
      if cur = some n then appTriggers cur ns
      else n :: appTriggers (some n) ns

/-- Whether a timeout callback is a per-event (trigger-producing) callback. -/
def isEvent : TAction → Bool
  | TAction.fireEvent _ _ _ _ => true
  | TAction.grace => false

/-- Whether a timeout handle is tracked in `playerRef.current`. -/
def trackedIn : Option (List Nat) → Nat → Bool
  | none, _ => false
  | some ids, i => ids.contains i

/-- Every armed per-event timeout's handle is tracked in `playerRef.current`.
This holds in every reachable state: `playSequence` pushes each per-event
handle into the ref it just created, and only `playSequence` arms per-event
timeouts. -/
def eventsTracked (s : MState) : Prop :=
  ∀ t ∈ s.timers, isEvent t.act = true → trackedIn s.playerRef t.id = true

/-- No armed timeout in the list is a per-event callback. -/
def noEventTimers (ts : List ArmedTimer) : Prop :=
  ∀ t ∈ ts, isEvent t.act = false

/-- The five bell notes: the keys of `bellPositions` in `BellsContainer`,
which are exactly the notes for which an `Audio` element exists in
`audioRefs.current`. -/
def noteSet : List String := ["Sol", "Fa", "Mi", "Ré", "Do"]

/-- The `BellsContainer` state: wall clock, the `playingNotes` map (visual
flags), the pending unconditional 200 ms clear timeouts (deadline and note),
and a log of the audio restarts (`audio.currentTime = 0; audio.play()`). -/
structure BellsState where
  now : Nat
  playingNotes : List (String × Bool)
  pendingClears : List (Nat × String)
  audioPlays : List String
deriving DecidableEq

/-- Initial `BellsContainer` state. -/
def bellsInit : BellsState := ⟨0, [], [], []⟩

/-- Read `playingNotes[k]` (`undefined`, i.e. false, when absent). -/
def lookupFlag (m : List (String × Bool)) (k : String) : Bool :=
  match m.find? (fun p => p.1 == k) with
  | some p => p.2
  | none => false

/-- The spread update `{...prev, [k]: v}` on the `playingNotes` map. -/
def setFlag (m : List (String × Bool)) (k : String) (v : Bool) :
    List (String × Bool) :=
  match m with
  | [] => [(k, v)]
  | p :: rest => if p.1 = k then (k, v) :: rest else p :: setFlag rest k v

/-- `handleBellClick(note)` outside edit mode: if `audioRefs.current[note]`
exists (i.e. `note` is one of the five bells) restart its audio clip; then
unconditionally set the note's visual flag and arm a 200 ms timeout that will
clear that flag. -/
def handleBellClick (note : String) (s : BellsState) : BellsState :=
  let s1 :=
    if noteSet.contains note then { s with audioPlays := s.audioPlays ++ [note] }
    else s
  { s1 with playingNotes := setFlag s1.playingNotes note true,
            pendingClears := s1.pendingClears ++ [(s1.now + 200, note)] }

/-- Fire every pending clear timeout with deadline at most `bound`: each one
unconditionally sets its note's flag to false. -/
def fireClears (bound : Nat) (s : BellsState) : BellsState :=
  let due := s.pendingClears.filter (fun p => decide (p.1 ≤ bound))
  { s with
      playingNotes := due.foldl (fun m p => setFlag m p.2 false) s.playingNotes,
      pendingClears := s.pendingClears.filter (fun p => decide (bound < p.1)) }

/-- Run a time-ordered list of `(time, note)` trigger calls against the
bells component, firing due clear timeouts before each call. -/
def runBells : List (Nat × String) → BellsState → BellsState
  | [], s => s
  | (t, note) :: rest, s =>
      runBells rest (handleBellClick note { fireClears t s with now := t })

/-- The value of `note`'s visual flag at time `t` after the given trigger
calls (all at times at most `t`): run the calls, then fire the clears due by
`t`. -/
def bellsFlagAt (clicks : List (Nat × String)) (t : Nat) (note : String) :
    Bool :=
  lookupFlag (fireClears t (runBells clicks bellsInit)).playingNotes note

/-- Script for C1: play a single-event sequence whose only event is at
`time = 0`, so `totalDuration = 0` and the callback fires with `elapsed = 0`. -/
def c1Script : List SCmd := [⟨0, UserAct.play (some [⟨"Do", 0⟩])⟩]

/-- Script for C2: a sequence in which the same note occurs in two
consecutive events. -/
def c2Script : List SCmd :=
  [⟨0, UserAct.play (some [⟨"Do", 100⟩, ⟨"Do", 300⟩])⟩]

/-- Script for C3: play seqA = [Do@100]; its event fires at t=100 and arms
the grace timeout for t=600; at t=300 — inside seqA's grace window — play
seqB = [Mi@0, Sol@1000]. -/
def c3Script : List SCmd :=
  [⟨0, UserAct.play (some [⟨"Do", 100⟩])⟩,
   ⟨300, UserAct.play (some [⟨"Mi", 0⟩, ⟨"Sol", 1000⟩])⟩]

/-- Script for the C4 counterexample: play [Do@100]; the event fires at
t=100 and arms the grace timeout for t=600; call stop() at t=200, inside the
grace window. -/
def c4Script : List SCmd :=
  [⟨0, UserAct.play (some [⟨"Do", 100⟩])⟩, ⟨200, UserAct.stop⟩]

/-- Concrete mid-session state for the C4 witness: the state immediately
after `play([Do@100])` from the initial state. -/
def c4Sample : MState := playSequence (some [⟨"Do", 100⟩]) initState

/-- Script for C7: the spec's worked example sequence Do@0, Mi@500, Sol@1000. -/
def c7Script : List SCmd :=
  [⟨0, UserAct.play (some [⟨"Do", 0⟩, ⟨"Mi", 500⟩, ⟨"Sol", 1000⟩])⟩]

/-- Script for the C8 counterexample: a single-event sequence at time 0, run
only until t=50 so the final (only) event has fired but the grace teardown
has not. -/
def c8Script : List SCmd := [⟨0, UserAct.play (some [⟨"Mi", 0⟩])⟩]

/-- Script for the C10 counterexample: play [Mi@100]; the event fires at
t=100 and arms the grace timeout for t=600; unmount at t=250. -/
def c10Script : List SCmd :=
  [⟨0, UserAct.play (some [⟨"Mi", 100⟩])⟩, ⟨250, UserAct.unmount⟩]

/-- Concrete mid-session state for the C10 witness: the state immediately
after `play([Mi@50])` from the initial state. -/
def c10Sample : MState := playSequence (some [⟨"Mi", 50⟩]) initState

/-- The timeout the event loop picks is one of the pending timeouts. -/
theorem minTimer_mem {ts : List ArmedTimer} {t : ArmedTimer}
    (h : minTimer ts = some t) : t ∈ ts := by
  induction ts with
  | nil => simp [minTimer] at h
  | cons a as ih =>
      simp only [minTimer] at h
      cases hm : minTimer as with
      | none =>
          rw [hm] at h
          simp only [Option.some.injEq] at h
          exact h ▸ List.mem_cons_self a as
      | some u =>
          rw [hm] at h
          dsimp only at h
          by_cases hc : timerLe a u = true
          · rw [if_pos hc] at h
            simp only [Option.some.injEq] at h
            exact h ▸ List.mem_cons_self a as
          · rw [if_neg hc] at h
            simp only [Option.some.injEq] at h
            exact List.mem_cons_of_mem a (ih (h ▸ hm))

/-- Filtering cannot introduce per-event timeouts. -/
theorem noEventTimers_filter {ts : List ArmedTimer} (p : ArmedTimer → Bool)
    (h : noEventTimers ts) : noEventTimers (ts.filter p) :=
  fun t ht => h t (List.mem_of_mem_filter ht)

/-- Cancelling the tracked timeouts cannot introduce per-event timeouts. -/
theorem noEventTimers_stopTimers {ts : List ArmedTimer}
    (ref : Option (List Nat)) (h : noEventTimers ts) :
    noEventTimers (stopTimers ref ts) := by
  cases ref with
  | none => exact h
  | some ids => exact noEventTimers_filter _ h

/-- When every armed per-event timeout is tracked in `playerRef.current`,
`stopPlayback` leaves no per-event timeout pending (only the untracked grace
timeout can survive). -/
theorem stop_noEvent (s : MState) (h : eventsTracked s) :
    noEventTimers (stopPlayback s).timers := by
  intro t ht
  have ht' : t ∈ stopTimers s.playerRef s.timers := ht
  cases hp : s.playerRef with
  | none =>
      rw [hp] at ht'
      cases hA : isEvent t.act with
      | false => rfl
      | true =>
          have htr := h t ht' hA
          rw [hp] at htr
          simp [trackedIn] at htr
  | some ids =>
      rw [hp] at ht'
      rw [stopTimers, List.mem_filter] at ht'
      obtain ⟨hmem, hdec⟩ := ht'
      cases hA : isEvent t.act with
      | false => rfl
      | true =>
          have htr := h t hmem hA
          rw [hp] at htr
          simp only [trackedIn] at htr
          simp only [decide_eq_true_eq] at hdec
          exact absurd (List.elem_iff.mp htr) hdec

/-- `stopPlayback` is idempotent. -/
theorem stopPlayback_idem (s : MState) :
    stopPlayback (stopPlayback s) = stopPlayback s := rfl

/-- When no per-event timeout is pending, letting the event loop run fires
no `onBellPlay` call (only grace timeouts, which call `stopPlayback`), and
this stays true. -/
theorem flush_silent (fuel bound : Nat) :
    ∀ s : MState, noEventTimers s.timers → (flush fuel bound s).2 = [] := by
  induction fuel with
  | zero => intro s _; rfl
  | succ f ih =>
      intro s h
      simp only [flush]
      cases hf : fireNextDue bound s with
      | none => rfl
      | some r =>
          obtain ⟨s1, out⟩ := r
          dsimp only
          simp only [fireNextDue] at hf
          cases hm : minTimer s.timers with
          | none => rw [hm] at hf; simp at hf
          | some t =>
              rw [hm] at hf
              dsimp only at hf
              by_cases hb : t.fireAt ≤ bound
              · rw [if_pos hb] at hf
                have htmem := minTimer_mem hm
                have hact : t.act = TAction.grace := by
                  have hA := h t htmem
                  cases hAv : t.act with
                  | fireEvent n st td l => rw [hAv] at hA; simp [isEvent] at hA
                  | grace => rfl
                rw [hact] at hf
                simp only [runAction, Option.some.injEq, Prod.mk.injEq] at hf
                obtain ⟨h1, h2⟩ := hf
                have hne1 : noEventTimers
                    (s.timers.filter (fun u => decide (u.id ≠ t.id))) :=
                  noEventTimers_filter _ h
                have hns1 : noEventTimers s1.timers := by
                  rw [← h1]
                  exact noEventTimers_stopTimers _ hne1
                simp only [← h2, ih s1 hns1, List.append_nil, List.nil_append]
              · rw [if_neg hb] at hf; simp at hf

/-- The spread update `{...prev, [k]: v}` leaves every other key's flag
unchanged. -/
theorem lookupFlag_setFlag_ne (m : List (String × Bool)) (k n : String)
    (v : Bool) (h : k ≠ n) :
    lookupFlag (setFlag m k v) n = lookupFlag m n := by
  have hb : (k == n) = false := beq_eq_false_iff_ne.mpr h
  induction m with
  | nil => simp [setFlag, lookupFlag, List.find?, hb]
  | cons p rest ih =>
      by_cases hp : p.1 = k
      · have hpn : (p.1 == n) = false :=
          beq_eq_false_iff_ne.mpr (by rw [hp]; exact h)
        rw [setFlag, if_pos hp]
        simp [lookupFlag, List.find?, hb, hpn]
      · rw [setFlag, if_neg hp]
        cases hpn : (p.1 == n) with
        | true => simp [lookupFlag, List.find?, hpn]
        | false =>
            simp only [lookupFlag, List.find?, hpn]
            exact ih

/-- Claim C1 (code bug evidence): playing the single-event sequence
`[{note: "Do", time: 0}]` gives `totalDuration = 0`; when its callback runs
with `elapsed = 0` (same-millisecond firing, as in this deterministic run),
the code computes `Math.min((0/0)*100, 100) = NaN`, so `progress` is NaN —
not the `100` the claim requires. (With `elapsed > 0` the code happens to
yield 100 via `min(Infinity, 100)`; there is no special case for
`totalDuration = 0` in the source.) -/
theorem c1_zero_duration_progress_nan :
    (runFull 10 100 c1Script initState).1.progress = JsNum.nan ∧
    JsNum.nan ≠ JsNum.num 100 := by
  constructor
  · rfl
  · decide

/-- Claim C2 (code bug evidence): for the sequence
`[{Do, 100}, {Do, 300}]` the scheduler does call `onBellPlay` once per event
(first conjunct), but the App wiring — `setActiveNote` plus the
`useEffect([activeNote])` in `BellsContainer` — drops the second, identical
note: a React state update with an unchanged value fires no effect, so
`handleBellClick` (the actual trigger) runs only once, not once per event. -/
theorem c2_consecutive_duplicate_note_dropped :
    (runFull 10 2000 c2Script initState).2 = ["Do", "Do"] ∧
    appTriggers none (runFull 10 2000 c2Script initState).2 = ["Do"] := by
  constructor <;> rfl

/-- Claim C3 (code bug evidence): play seqA = [Do@100]; its last (only)
event fires at t = 100 and arms the 500 ms grace timeout (t = 600) *without*
tracking it in `playerRef`. Playing seqB = [Mi@0, Sol@1000] at t = 300 —
inside seqA's grace window — therefore does not cancel that timeout; at
t = 600 it runs `stopPlayback`, which cancels seqB's still-pending Sol timer.
The full run triggers only ["Do", "Mi"]: seqB's "Sol" never fires and seqB's
session is torn down early, contradicting the claim that no timer of seqA's
session can affect seqB's session. -/
theorem c3_grace_timer_kills_next_session :
    (runFull 10 2000 c3Script initState).2 = ["Do", "Mi"] ∧
    "Sol" ∉ (runFull 10 2000 c3Script initState).2 ∧
    (runFull 10 2000 c3Script initState).1.isPlaying = false := by
  refine ⟨rfl, ?_, rfl⟩
  decide

/-- Claim C9: `playSequence` on a null (`none`) or empty sequence returns
the state unchanged — no timers armed, no state field touched, no error. -/
theorem c9_empty_sequence_noop (s : MState) :
    playSequence none s = s ∧ playSequence (some []) s = s := ⟨rfl, rfl⟩

/-- Claim C4 counterexample: play [Do@100] at t = 0 (its event fires at
t = 100, arming the untracked grace timeout for t = 600) and call `stop()` at
t = 200. After `stop()` returns, the grace timeout — a timer scheduled by the
session and still unfired — is *not* cancelled: the pending-timer list is
nonempty, contradicting "cancels every pending timer of the current
session". -/
theorem c4_stop_counterexample :
    (runScript 10 c4Script initState).1.timers = [⟨1, 600, TAction.grace⟩] ∧
    (runScript 10 c4Script initState).1.playerRef = none := by
  constructor <;> rfl

/-- Claim C4 (amended): provided every armed per-event timeout is tracked in
`playerRef` (true in all reachable states), `stopPlayback` resets
`isPlaying` and `progress`, nulls the ref, is idempotent, is a no-op in the
idle state, and cancels every *tracked event* timer, so that no
`onBellPlay`/trigger call can fire afterwards — the untracked 500 ms grace
timeout may survive, but it only re-runs `stopPlayback` and triggers
nothing. -/
theorem c4_stop_amended (s : MState) (fuel bound : Nat)
    (h : eventsTracked s) :
    (stopPlayback s).isPlaying = false ∧
    (stopPlayback s).progress = JsNum.num 0 ∧
    (stopPlayback s).playerRef = none ∧
    stopPlayback (stopPlayback s) = stopPlayback s ∧
    stopPlayback initState = initState ∧
    (flush fuel bound (stopPlayback s)).2 = [] :=
  ⟨rfl, rfl, rfl, stopPlayback_idem s, rfl,
   flush_silent fuel bound _ (stop_noEvent s h)⟩

/-- Witness for the amended C4 at the concrete mid-session state reached by
`play([Do@100])`. -/
theorem c4_stop_amended_witness :
    eventsTracked c4Sample ∧
    ((stopPlayback c4Sample).isPlaying = false ∧
     (stopPlayback c4Sample).progress = JsNum.num 0 ∧
     (stopPlayback c4Sample).playerRef = none ∧
     stopPlayback (stopPlayback c4Sample) = stopPlayback c4Sample ∧
     stopPlayback initState = initState ∧
     (flush 5 1000 (stopPlayback c4Sample)).2 = []) :=
  ⟨by unfold eventsTracked; decide, c4_stop_amended c4Sample 5 1000
    (by unfold eventsTracked; decide)⟩

/-- Claim C10 counterexample: play [Mi@100] at t = 0 (the event fires at
t = 100 and arms the untracked grace timeout for t = 600), then unmount the
component at t = 250. The cleanup (`stopPlayback`) does not cancel the
still-pending grace timeout, contradicting "every pending timer is
cancelled". -/
theorem c10_unmount_counterexample :
    (runScript 10 c10Script initState).1.timers = [⟨1, 600, TAction.grace⟩] ∧
    (runScript 10 c10Script initState).2 = ["Mi"] := by
  constructor <;> rfl

/-- Claim C10 (amended): the unmount cleanup runs exactly `stopPlayback`:
it cancels every tracked event timer, resets `progress` to 0 and `isPlaying`
to false, and no trigger call can fire afterwards; only the untracked 500 ms
grace timeout (which merely re-runs `stopPlayback`) can survive. -/
theorem c10_unmount_amended (s : MState) (fuel bound : Nat)
    (h : eventsTracked s) :
    applyAct UserAct.unmount s = stopPlayback s ∧
    (applyAct UserAct.unmount s).isPlaying = false ∧
    (applyAct UserAct.unmount s).progress = JsNum.num 0 ∧
    (flush fuel bound (applyAct UserAct.unmount s)).2 = [] :=
  ⟨rfl, rfl, rfl, flush_silent fuel bound _ (stop_noEvent s h)⟩

/-- Witness for the amended C10 at the concrete mid-session state reached by
`play([Mi@50])`. -/
theorem c10_unmount_amended_witness :
    eventsTracked c10Sample ∧
    (applyAct UserAct.unmount c10Sample = stopPlayback c10Sample ∧
     (applyAct UserAct.unmount c10Sample).isPlaying = false ∧
     (applyAct UserAct.unmount c10Sample).progress = JsNum.num 0 ∧
     (flush 5 1000 (applyAct UserAct.unmount c10Sample)).2 = []) :=
  ⟨by unfold eventsTracked; decide, c10_unmount_amended c10Sample 5 1000
    (by unfold eventsTracked; decide)⟩

/-- Claim C7: when the last event's callback runs it arms the Completed
transition — a timeout exactly 500 ms later whose callback is
`stopPlayback` — and that teardown returns the state to Idle
(`isPlaying = false`) with `progress` reset to 0. The final two conjuncts
run the spec's worked example [Do@0, Mi@500, Sol@1000] to completion: the
session ends Idle with progress 0. -/
theorem c7_completion_teardown :
    (∀ (s : MState) (note : String) (st td : Nat),
        ((runAction (TAction.fireEvent note st td true) s).1).timers
          = s.timers ++ [⟨s.nextId, s.now + 500, TAction.grace⟩]) ∧
    (∀ s : MState, runAction TAction.grace s = (stopPlayback s, [])) ∧
    (∀ s : MState,
        (stopPlayback s).isPlaying = false ∧
        (stopPlayback s).progress = JsNum.num 0) ∧
    (runFull 10 2000 c7Script initState).1.isPlaying = false ∧
    (runFull 10 2000 c7Script initState).1.progress = JsNum.num 0 :=
  ⟨fun _ _ _ _ => rfl, fun _ => rfl, fun _ => ⟨rfl, rfl⟩, rfl, rfl⟩

/-- Claim C8 counterexample: for the single-event sequence [Mi@0]
(`totalDuration = 0`), when the final — and only — event fires, `progress`
is NaN (`0/0`), not exactly 100 as the claim requires. -/
theorem c8_progress_counterexample :
    (runFull 10 50 c8Script initState).1.progress = JsNum.nan ∧
    (runFull 10 50 c8Script initState).1.progress ≠ JsNum.num 100 := by
  constructor
  · rfl
  · decide

/-- Claim C8 (amended): for a session with positive `totalDuration`, the
progress value `Math.min((elapsed/totalDuration)*100, 100)` is a finite
number, non-decreasing in the elapsed time observed across timer firings,
never above 100, and exactly 100 at any firing whose elapsed time has
reached `totalDuration` — in particular at the final event, whose timeout
cannot fire earlier than `totalDuration`. -/
theorem c8_progress_monotone_amended (td e1 e2 : ℚ) (h0 : 0 < td)
    (h1 : e1 ≤ e2) :
    (∃ q1 q2, computeProgress e1 td = JsNum.num q1 ∧
       computeProgress e2 td = JsNum.num q2 ∧ q1 ≤ q2 ∧ q2 ≤ 100) ∧
    (td ≤ e2 → computeProgress e2 td = JsNum.num 100) := by
  have hne : td ≠ 0 := ne_of_gt h0
  constructor
  · refine ⟨min (e1 / td * 100) 100, min (e2 / td * 100) 100, ?_, ?_, ?_,
      min_le_right _ _⟩
    · simp [computeProgress, jsDiv, jsMul100, jsMin100, hne]
    · simp [computeProgress, jsDiv, jsMul100, jsMin100, hne]
    · have hd : e1 / td ≤ e2 / td := by gcongr
      have hm : e1 / td * 100 ≤ e2 / td * 100 :=
        mul_le_mul_of_nonneg_right hd (by norm_num)
      exact min_le_min hm le_rfl
  · intro hle
    have h2 : (1 : ℚ) ≤ e2 / td := (one_le_div h0).mpr hle
    have h3 : (100 : ℚ) ≤ e2 / td * 100 := by nlinarith
    simp [computeProgress, jsDiv, jsMul100, jsMin100, hne, min_eq_right h3]

/-- Witness for the amended C8 at `totalDuration = 200` with elapsed times
50 and 250. -/
theorem c8_progress_monotone_amended_witness :
    (0 : ℚ) < 200 ∧ (50 : ℚ) ≤ 250 ∧
    ((∃ q1 q2, computeProgress 50 200 = JsNum.num q1 ∧
        computeProgress 250 200 = JsNum.num q2 ∧ q1 ≤ q2 ∧ q2 ≤ 100) ∧
     ((200 : ℚ) ≤ 250 → computeProgress 250 200 = JsNum.num 100)) :=
  ⟨by norm_num, by norm_num,
   c8_progress_monotone_amended 200 50 250 (by norm_num) (by norm_num)⟩

/-- Claim C5 counterexample: `trigger("Do")` at t = 0 and again at t = 100.
Each call arms its own unconditional 200 ms clear timeout; the first one
fires at t = 200 and sets the flag to false regardless of the newer call, so
at t = 250 the flag is false — the claim requires it to be continuously true
until t = 300. -/
theorem c5_flag_counterexample :
    bellsFlagAt [(0, "Do"), (100, "Do")] 250 "Do" = false := by rfl

set_option maxRecDepth 4000 in
/-- Claim C5 (amended): `trigger(note)` sets the flag true and arms an
*unconditional* clear 200 ms later; a newer trigger does not cancel or
extend it. With two triggers at t = 0 and 0 < t2 < 200, the flag is still
true at t = 199 but already false at t = 200 — i.e. 200 ms after the
*first* call, not the second. -/
theorem c5_flag_amended (t2 : Nat) (h2 : t2 < 200) (h1 : 0 < t2) :
    bellsFlagAt [(0, "Do"), (t2, "Do")] 199 "Do" = true ∧
    bellsFlagAt [(0, "Do"), (t2, "Do")] 200 "Do" = false := by
  revert h1
  revert h2
  revert t2
  decide

/-- Witness for the amended C5 at t2 = 100. -/
theorem c5_flag_amended_witness :
    100 < 200 ∧ 0 < 100 ∧
    (bellsFlagAt [(0, "Do"), (100, "Do")] 199 "Do" = true ∧
     bellsFlagAt [(0, "Do"), (100, "Do")] 200 "Do" = false) :=
  ⟨by decide, by decide, c5_flag_amended 100 (by decide) (by decide)⟩

/-- Claim C6: for a note outside the five-bell set, `handleBellClick` (the
trigger implementation) restarts no audio clip (`audioRefs.current[note]`
is undefined, so the guarded play is skipped) and leaves the visual
`isPlaying` flag of every rendered bell — the five notes of `noteSet` —
unchanged; the function is total, so no error reaches the scheduler. (The
`playingNotes` map does gain an entry for the unknown key, but no bell is
rendered for it, so no visual flag is affected.) -/
theorem c6_unknown_note_noop (s : BellsState) (note n : String)
    (h : noteSet.contains note = false) (hn : noteSet.contains n = true) :
    (handleBellClick note s).audioPlays = s.audioPlays ∧
    lookupFlag (handleBellClick note s).playingNotes n
      = lookupFlag s.playingNotes n := by
  have hne : note ≠ n := by
    intro e
    rw [e, hn] at h
    exact Bool.noConfusion h
  have hcond : ¬ (noteSet.contains note = true) := by
    rw [h]
    simp
  constructor
  · simp only [handleBellClick]
    rw [if_neg hcond]
  · simp only [handleBellClick]
    rw [if_neg hcond]
    exact lookupFlag_setFlag_ne s.playingNotes note n true hne

/-- Witness for C6: clicking the unknown note "Si" from the initial bells
state leaves the audio log and the "Do" flag unchanged. -/
theorem c6_unknown_note_noop_witness :
    noteSet.contains "Si" = false ∧ noteSet.contains "Do" = true ∧
    ((handleBellClick "Si" bellsInit).audioPlays = bellsInit.audioPlays ∧
     lookupFlag (handleBellClick "Si" bellsInit).playingNotes "Do"
       = lookupFlag bellsInit.playingNotes "Do") :=
  ⟨rfl, rfl, c6_unknown_note_noop bellsInit "Si" "Do" rfl rfl⟩
